import Mathlib

/-!
Verification of the PlanIt multi-agent planner simulation
(src/planit_simulation.py) against its specification.

The Python program is embedded shallowly:
* numbers are modelled as rationals (the program only multiplies and
  divides small integer literals and the weight constants 0.6/0.4);
* the Python route dictionaries become a Candidate structure whose
  derived fields (cost, score_time, feasible) are Option-valued, since a
  route dictionary acquires those keys only once the corresponding agent
  stage has run;
* Python exceptions (NotImplementedError, ZeroDivisionError, KeyError)
  become an explicit PlanError value threaded through Except; the print
  statements and the agent name strings carried by the Python classes do
  not affect the data flow and are omitted.
-/

/-- Errors the embedded program can signal. The first three model the
Python exceptions the source can actually raise; validationError models
the error kind the specification's error taxonomy demands for malformed
input (the source never raises it, which several claims are about). -/
inductive PlanError where
  | notImplementedError (msg : String)
  | zeroDivisionError
  | keyError (key : String)
  | validationError (msg : String)
deriving DecidableEq, Repr

/-- The user_input dictionary built by run_planit: source, destination
and a priority string. -/
structure UserRequest where
  source : String
  destination : String
  priority : String
deriving DecidableEq, Repr

/-- The weights dictionary produced by PreferenceAgent.process. -/
structure Weights where
  time_weight : ℚ
  cost_weight : ℚ
deriving DecidableEq, Repr

/-- A route dictionary. RouteAgent populates route, distance and time;
cost, score_time and feasible are written later by CostAgent, TimeAgent
and ResourceAgent respectively, so they start out absent (none). -/
structure Candidate where
  route : String
  distance : ℚ
  time : ℚ
  cost : Option ℚ := none
  score_time : Option ℚ := none
  feasible : Option Bool := none
deriving DecidableEq, Repr

/-- The BaseAgent class: it only carries the agent's name. -/
structure BaseAgent where
  name : String
deriving DecidableEq, Repr

/-- BaseAgent.process from the source: it unconditionally raises
NotImplementedError, whatever the input data is, so its result type is
never inhabited and is modelled as Except PlanError Unit. -/
def BaseAgent.process {α : Type} (_a : BaseAgent) (_data : α) :
    Except PlanError Unit :=
  Except.error (PlanError.notImplementedError
    "Each agent must implement the process() method")

/-- PreferenceAgent.process: priority fast gives time_weight 0.6 and
cost_weight 0.4; any other priority gives 0.4 and 0.6. -/
def PreferenceAgent.process (user_input : UserRequest) : Weights :=
  { time_weight := if user_input.priority = "fast" then 0.6 else 0.4
    cost_weight := if user_input.priority = "fast" then 0.4 else 0.6 }

/-- RouteAgent.process: returns the fixed literal candidate list; the
request argument is ignored by the source as well. -/
def RouteAgent.process (_data : UserRequest) : List Candidate :=
  [{ route := "Route A", distance := 10, time := 20 },
   { route := "Route B", distance := 14, time := 15 },
   { route := "Route C", distance := 8, time := 25 }]

/-- CostAgent.process: writes cost = distance * 5 on every route. -/
def CostAgent.process (routes : List Candidate) : List Candidate :=
  routes.map fun r => { r with cost := some (r.distance * 5) }

/-- TimeAgent.process: writes score_time = 1 / time on every route, in
order; a route with time = 0 makes the Python division raise
ZeroDivisionError, modelled by an error result (negative times divide
fine in Python and are not rejected). -/
def TimeAgent.process : List Candidate → Except PlanError (List Candidate)
  | [] => Except.ok []
  | r :: rs =>
      if r.time = 0 then Except.error PlanError.zeroDivisionError
      else
        match TimeAgent.process rs with
        | Except.error e => Except.error e
        | Except.ok rest =>
            Except.ok ({ r with score_time := some (1 / r.time) } :: rest)

/-- ResourceAgent.process: marks every route feasible. -/
def ResourceAgent.process (routes : List Candidate) : List Candidate :=
  routes.map fun r => { r with feasible := some true }

/-- The per-candidate score expression inside DecisionFusion.select_best:
the time weight times (1 / time) plus the cost weight times (1 / cost).
Reading a missing cost key raises KeyError and a zero denominator raises
ZeroDivisionError, in Python's evaluation order (the time factor is
evaluated before the cost key is read). -/
def DecisionFusion.score (weights : Weights) (r : Candidate) :
    Except PlanError ℚ :=
  if r.time = 0 then Except.error PlanError.zeroDivisionError
  else
    match r.cost with
    | none => Except.error (PlanError.keyError "cost")
    | some c =>
        if c = 0 then Except.error PlanError.zeroDivisionError
        else Except.ok (weights.time_weight * (1 / r.time) +
                        weights.cost_weight * (1 / c))

/-- The scan loop of DecisionFusion.select_best, carrying best_score and
best_route; the best is replaced only when the new score is strictly
greater than the best score so far. -/
def DecisionFusion.selectBestAux (weights : Weights) :
    List Candidate → ℚ → Option Candidate →
    Except PlanError (Option Candidate)
  | [], _, best_route => Except.ok best_route
  | r :: rs, best_score, best_route =>
      match DecisionFusion.score weights r with
      | Except.error e => Except.error e
      | Except.ok s =>
          if best_score < s then
            DecisionFusion.selectBestAux weights rs s (some r)
          else
            DecisionFusion.selectBestAux weights rs best_score best_route

/-- DecisionFusion.select_best: scans the routes starting from the
sentinel best_score = -1 and best_route = None. -/
def DecisionFusion.select_best (routes : List Candidate)
    (weights : Weights) : Except PlanError (Option Candidate) :=
  DecisionFusion.selectBestAux weights routes (-1) none

/-- run_planit: the full pipeline over the hardcoded user input with
priority fast, exactly in the source's stage order. -/
def run_planit : Except PlanError (Option Candidate) :=
  let user_input : UserRequest :=
    { source := "Location A", destination := "Location B"
      priority := "fast" }
  let weights := PreferenceAgent.process user_input
  let routes := RouteAgent.process user_input
  let routes := CostAgent.process routes
  match TimeAgent.process routes with
  | Except.error e => Except.error e
  | Except.ok routes =>
      let routes := ResourceAgent.process routes
      DecisionFusion.select_best routes weights

/-! ### Derived notions used to state the claims -/

/-- The value of the fusion score when no exception occurs (time nonzero
and cost present and nonzero); written with Option.getD so it is total. -/
def scoreVal (weights : Weights) (r : Candidate) : ℚ :=
  weights.time_weight * (1 / r.time) +
    weights.cost_weight * (1 / r.cost.getD 0)

/-- A candidate on which the fusion score evaluates without an exception
and meaningfully: positive time and a present, positive cost. -/
def ValidCand (r : Candidate) : Prop :=
  0 < r.time ∧ r.cost.isSome = true ∧ 0 < r.cost.getD 0

instance (r : Candidate) : Decidable (ValidCand r) := by
  unfold ValidCand; infer_instance

/-- Equality of candidates on every field except the feasible flag. -/
def eqExceptFeasible (a b : Candidate) : Prop :=
  a.route = b.route ∧ a.distance = b.distance ∧ a.time = b.time ∧
    a.cost = b.cost ∧ a.score_time = b.score_time

/-- Lifting of eqExceptFeasible to the optional best route, additionally
recording that related candidates get the same fusion score. -/
def optCandRel (weights : Weights) :
    Option Candidate → Option Candidate → Prop
  | none, none => True
  | some a, some b =>
      eqExceptFeasible a b ∧
        DecisionFusion.score weights a = DecisionFusion.score weights b
  | _, _ => False

/-- Lifting of optCandRel to fusion outcomes: equal errors, or related
selections. -/
def fusionOutcomeRel (weights : Weights) :
    Except PlanError (Option Candidate) →
    Except PlanError (Option Candidate) → Prop
  | Except.error e₁, Except.error e₂ => e₁ = e₂
  | Except.ok o₁, Except.ok o₂ => optCandRel weights o₁ o₂
  | _, _ => False

/-- The candidate list RouteAgent produces, used as a concrete input. -/
def sampleRoutes : List Candidate :=
  [{ route := "Route A", distance := 10, time := 20 },
   { route := "Route B", distance := 14, time := 15 },
   { route := "Route C", distance := 8, time := 25 }]

/-- The candidate list after every annotation stage has run, used as a
concrete input to decision fusion. -/
def sampleFused : List Candidate :=
  [{ route := "Route A", distance := 10, time := 20, cost := some 50,
     score_time := some (1/20), feasible := some true },
   { route := "Route B", distance := 14, time := 15, cost := some 70,
     score_time := some (1/15), feasible := some true },
   { route := "Route C", distance := 8, time := 25, cost := some 40,
     score_time := some (1/25), feasible := some true }]

/-- The same list as sampleFused with its feasible flags altered. -/
def sampleInfeasible : List Candidate :=
  [{ route := "Route A", distance := 10, time := 20, cost := some 50,
     score_time := some (1/20), feasible := some false },
   { route := "Route B", distance := 14, time := 15, cost := some 70,
     score_time := some (1/15), feasible := none },
   { route := "Route C", distance := 8, time := 25, cost := some 40,
     score_time := some (1/25), feasible := some true }]

/-! ### Helper lemmas -/

lemma score_eq_of_valid (weights : Weights) (r : Candidate)
    (h : ValidCand r) :
    DecisionFusion.score weights r = Except.ok (scoreVal weights r) := by
  obtain ⟨ht, hsome, hpos⟩ := h
  match hc : r.cost with
  | none => rw [hc] at hsome; simp at hsome
  | some c =>
      have htz : ¬ r.time = 0 := ne_of_gt ht
      have hcz : ¬ c = 0 := by
        rw [hc] at hpos
        simpa using ne_of_gt hpos
      simp [DecisionFusion.score, scoreVal, hc, htz, hcz]

lemma scoreVal_nonneg (weights : Weights) (r : Candidate)
    (htw : 0 ≤ weights.time_weight) (hcw : 0 ≤ weights.cost_weight)
    (h : ValidCand r) : 0 ≤ scoreVal weights r := by
  obtain ⟨ht, _, hpos⟩ := h
  have h1 : (0:ℚ) ≤ 1 / r.time := le_of_lt (by positivity)
  have h2 : (0:ℚ) ≤ 1 / r.cost.getD 0 := le_of_lt (by positivity)
  exact add_nonneg (mul_nonneg htw h1) (mul_nonneg hcw h2)

/-- The scan either keeps its initial best (when no score strictly beats
the initial best score) or returns the first candidate attaining the
maximal score above the initial best score. -/
lemma selectBestAux_argmax (weights : Weights) :
    ∀ (rs : List Candidate) (s0 : ℚ) (b0 : Option Candidate),
      (∀ r ∈ rs, ValidCand r) →
      ((∀ r ∈ rs, scoreVal weights r ≤ s0) ∧
         DecisionFusion.selectBestAux weights rs s0 b0 = Except.ok b0) ∨
      (∃ i, ∃ hi : i < rs.length,
         DecisionFusion.selectBestAux weights rs s0 b0 =
           Except.ok (some (rs.get ⟨i, hi⟩)) ∧
         s0 < scoreVal weights (rs.get ⟨i, hi⟩) ∧
         (∀ j, ∀ hj : j < rs.length,
           scoreVal weights (rs.get ⟨j, hj⟩) ≤
             scoreVal weights (rs.get ⟨i, hi⟩)) ∧
         (∀ j, ∀ hj : j < rs.length, j < i →
           scoreVal weights (rs.get ⟨j, hj⟩) <
             scoreVal weights (rs.get ⟨i, hi⟩))) := by
  intro rs
  induction rs with
  | nil =>
      intro s0 b0 _
      left
      refine ⟨?_, rfl⟩
      intro r hr
      cases hr
  | cons r rs ih =>
      intro s0 b0 h
      have hr : ValidCand r := h r (List.mem_cons_self r rs)
      have hrs : ∀ x ∈ rs, ValidCand x :=
        fun x hx => h x (List.mem_cons_of_mem r hx)
      have hs := score_eq_of_valid weights r hr
      by_cases hcmp : s0 < scoreVal weights r
      · have hstep : DecisionFusion.selectBestAux weights (r :: rs) s0 b0 =
            DecisionFusion.selectBestAux weights rs (scoreVal weights r) (some r) := by
          simp [DecisionFusion.selectBestAux, hs, hcmp]
        rcases ih (scoreVal weights r) (some r) hrs with
          ⟨hall, heq⟩ | ⟨i, hi, heq, hgt, hmax, hfirst⟩
        · right
          refine ⟨0, Nat.succ_pos _, ?_, hcmp, ?_, ?_⟩
          · rw [hstep, heq]
            rfl
          · intro j hj
            cases j with
            | zero => exact le_refl _
            | succ k => exact hall _ (List.get_mem _ _ _)
          · intro j hj hj0
            exact absurd hj0 (Nat.not_lt_zero j)
        · right
          refine ⟨i + 1, Nat.succ_lt_succ hi, ?_, lt_trans hcmp hgt, ?_, ?_⟩
          · rw [hstep, heq]
            rfl
          · intro j hj
            cases j with
            | zero => exact le_of_lt hgt
            | succ k => exact hmax k (Nat.lt_of_succ_lt_succ hj)
          · intro j hj hji
            cases j with
            | zero => exact hgt
            | succ k =>
                exact hfirst k (Nat.lt_of_succ_lt_succ hj)
                  (Nat.lt_of_succ_lt_succ hji)
      · have hstep : DecisionFusion.selectBestAux weights (r :: rs) s0 b0 =
            DecisionFusion.selectBestAux weights rs s0 b0 := by
          simp [DecisionFusion.selectBestAux, hs, hcmp]
        rcases ih s0 b0 hrs with
          ⟨hall, heq⟩ | ⟨i, hi, heq, hgt, hmax, hfirst⟩
        · left
          constructor
          · intro x hx
            rcases List.mem_cons.mp hx with rfl | hx'
            · exact le_of_not_lt hcmp
            · exact hall x hx'
          · rw [hstep, heq]
        · right
          refine ⟨i + 1, Nat.succ_lt_succ hi, ?_, hgt, ?_, ?_⟩
          · rw [hstep, heq]
            rfl
          · intro j hj
            cases j with
            | zero => exact le_trans (le_of_not_lt hcmp) (le_of_lt hgt)
            | succ k => exact hmax k (Nat.lt_of_succ_lt_succ hj)
          · intro j hj hji
            cases j with
            | zero => exact lt_of_le_of_lt (le_of_not_lt hcmp) hgt
            | succ k =>
                exact hfirst k (Nat.lt_of_succ_lt_succ hj)
                  (Nat.lt_of_succ_lt_succ hji)

lemma score_congr (weights : Weights) {a b : Candidate}
    (h : eqExceptFeasible a b) :
    DecisionFusion.score weights a = DecisionFusion.score weights b := by
  obtain ⟨_, _, ht, hc, _⟩ := h
  unfold DecisionFusion.score
  rw [ht, hc]

lemma selectBestAux_congr (weights : Weights) :
    ∀ {rs₁ rs₂ : List Candidate},
      List.Forall₂ eqExceptFeasible rs₁ rs₂ →
      ∀ {b₁ b₂ : Option Candidate}, optCandRel weights b₁ b₂ →
      ∀ s : ℚ,
        fusionOutcomeRel weights
          (DecisionFusion.selectBestAux weights rs₁ s b₁)
          (DecisionFusion.selectBestAux weights rs₂ s b₂) := by
  intro rs₁ rs₂ hf
  induction hf with
  | nil =>
      intro b₁ b₂ hb s
      simpa [DecisionFusion.selectBestAux, fusionOutcomeRel] using hb
  | @cons a₁ a₂ l₁ l₂ ha _ ih =>
      intro b₁ b₂ hb s
      have hsc : DecisionFusion.score weights a₁ =
          DecisionFusion.score weights a₂ := score_congr weights ha
      cases hscore : DecisionFusion.score weights a₁ with
      | error e =>
          have hscore₂ : DecisionFusion.score weights a₂ = Except.error e :=
            hsc ▸ hscore
          simp [DecisionFusion.selectBestAux, hscore, hscore₂,
            fusionOutcomeRel]
      | ok sc =>
          have hscore₂ : DecisionFusion.score weights a₂ = Except.ok sc :=
            hsc ▸ hscore
          by_cases hlt : s < sc
          · simp only [DecisionFusion.selectBestAux, hscore, hscore₂,
              if_pos hlt]
            refine ih ?_ sc
            unfold optCandRel
            exact ⟨ha, hsc⟩
          · simp only [DecisionFusion.selectBestAux, hscore, hscore₂,
              if_neg hlt]
            exact ih hb s

lemma timeAgent_eq_map (routes : List Candidate)
    (hz : ∀ r ∈ routes, r.time ≠ 0) :
    TimeAgent.process routes =
      Except.ok (routes.map fun r =>
        { r with score_time := some (1 / r.time) }) := by
  induction routes with
  | nil => rfl
  | cons r rs ih =>
      have h0 : ¬ r.time = 0 := hz r (List.mem_cons_self r rs)
      have hrest := ih fun x hx => hz x (List.mem_cons_of_mem r hx)
      simp [TimeAgent.process, h0, hrest]

/-! ### The claims -/

/-- Claim C1: over a non-empty candidate list in which every candidate
has positive time and a present positive cost, and for nonnegative
weights (the WeightSet invariant), decision fusion succeeds and returns
a candidate of the list whose score, computed by the formula
time_weight * (1 / time) + cost_weight * (1 / cost), is greatest; every
candidate strictly earlier in the list has a strictly smaller score, so
ties resolve to the first-encountered candidate. -/
theorem select_best_argmax (weights : Weights) (routes : List Candidate)
    (hne : routes ≠ [])
    (hval : ∀ r ∈ routes, ValidCand r)
    (htw : 0 ≤ weights.time_weight) (hcw : 0 ≤ weights.cost_weight) :
    ∃ i, ∃ hi : i < routes.length,
      DecisionFusion.select_best routes weights =
        Except.ok (some (routes.get ⟨i, hi⟩)) ∧
      DecisionFusion.score weights (routes.get ⟨i, hi⟩) =
        Except.ok (weights.time_weight * (1 / (routes.get ⟨i, hi⟩).time) +
          weights.cost_weight * (1 / (routes.get ⟨i, hi⟩).cost.getD 0)) ∧
      (∀ j, ∀ hj : j < routes.length,
        scoreVal weights (routes.get ⟨j, hj⟩) ≤
          scoreVal weights (routes.get ⟨i, hi⟩)) ∧
      (∀ j, ∀ hj : j < routes.length, j < i →
        scoreVal weights (routes.get ⟨j, hj⟩) <
          scoreVal weights (routes.get ⟨i, hi⟩)) := by
  rcases selectBestAux_argmax weights routes (-1) none hval with
    ⟨hall, _⟩ | ⟨i, hi, heq, _, hmax, hfirst⟩
  · exfalso
    cases routes with
    | nil => exact hne rfl
    | cons r rs =>
        have hvr : ValidCand r := hval r (List.mem_cons_self r rs)
        have h0 : 0 ≤ scoreVal weights r :=
          scoreVal_nonneg weights r htw hcw hvr
        have hle : scoreVal weights r ≤ -1 :=
          hall r (List.mem_cons_self r rs)
        linarith
  · refine ⟨i, hi, heq, ?_, hmax, hfirst⟩
    have hv : ValidCand (routes.get ⟨i, hi⟩) :=
      hval _ (List.get_mem _ _ _)
    simpa [scoreVal] using score_eq_of_valid weights _ hv

/-- Concrete instance of select_best_argmax on the fully annotated fixed
route list with the fast weights. -/
theorem select_best_argmax_witness :
    (sampleFused ≠ [] ∧ (∀ r ∈ sampleFused, ValidCand r) ∧
      0 ≤ ({ time_weight := 0.6, cost_weight := 0.4 } : Weights).time_weight ∧
      0 ≤ ({ time_weight := 0.6, cost_weight := 0.4 } : Weights).cost_weight) ∧
    (∃ i, ∃ hi : i < sampleFused.length,
      DecisionFusion.select_best sampleFused
          { time_weight := 0.6, cost_weight := 0.4 } =
        Except.ok (some (sampleFused.get ⟨i, hi⟩)) ∧
      DecisionFusion.score { time_weight := 0.6, cost_weight := 0.4 }
          (sampleFused.get ⟨i, hi⟩) =
        Except.ok
          (({ time_weight := 0.6, cost_weight := 0.4 } : Weights).time_weight *
              (1 / (sampleFused.get ⟨i, hi⟩).time) +
            ({ time_weight := 0.6, cost_weight := 0.4 } : Weights).cost_weight *
              (1 / (sampleFused.get ⟨i, hi⟩).cost.getD 0)) ∧
      (∀ j, ∀ hj : j < sampleFused.length,
        scoreVal { time_weight := 0.6, cost_weight := 0.4 }
            (sampleFused.get ⟨j, hj⟩) ≤
          scoreVal { time_weight := 0.6, cost_weight := 0.4 }
            (sampleFused.get ⟨i, hi⟩)) ∧
      (∀ j, ∀ hj : j < sampleFused.length, j < i →
        scoreVal { time_weight := 0.6, cost_weight := 0.4 }
            (sampleFused.get ⟨j, hj⟩) <
          scoreVal { time_weight := 0.6, cost_weight := 0.4 }
            (sampleFused.get ⟨i, hi⟩))) :=
  ⟨⟨by decide, by decide, by norm_num, by norm_num⟩,
    select_best_argmax { time_weight := 0.6, cost_weight := 0.4 } sampleFused
      (by decide) (by decide) (by norm_num) (by norm_num)⟩

/-- Claim C2: on the hardcoded fast request over the fixed route list,
preference interpretation yields weights 0.6/0.4, cost estimation yields
costs 50, 70, 40, time evaluation yields scores 1/20, 1/15, 1/25, and
the full pipeline selects Route B. -/
theorem run_planit_scenario_fast :
    PreferenceAgent.process
        { source := "Location A", destination := "Location B",
          priority := "fast" } =
      { time_weight := 0.6, cost_weight := 0.4 } ∧
    (CostAgent.process (RouteAgent.process
        { source := "Location A", destination := "Location B",
          priority := "fast" })).map Candidate.cost =
      [some 50, some 70, some 40] ∧
    Except.map (List.map Candidate.score_time)
        (TimeAgent.process (CostAgent.process (RouteAgent.process
          { source := "Location A", destination := "Location B",
            priority := "fast" }))) =
      Except.ok [some (1/20), some (1/15), some (1/25)] ∧
    run_planit = Except.ok (some
      { route := "Route B", distance := 14, time := 15, cost := some 70,
        score_time := some (1/15), feasible := some true }) := by
  refine ⟨by norm_num [PreferenceAgent.process],
    by norm_num [CostAgent.process, RouteAgent.process], ?_, ?_⟩
  · norm_num [TimeAgent.process, CostAgent.process, RouteAgent.process,
      Except.map]
  · norm_num [run_planit, PreferenceAgent.process, RouteAgent.process,
      CostAgent.process, TimeAgent.process, ResourceAgent.process,
      DecisionFusion.select_best, DecisionFusion.selectBestAux,
      DecisionFusion.score]

/-- Claim C3: every request with priority fast gets time_weight 0.6 and
cost_weight 0.4, and every other priority (cheap or unrecognized) gets
0.4 and 0.6; the two weights always sum to 1. -/
theorem preference_weights_rule (u : UserRequest) :
    PreferenceAgent.process u =
      (if u.priority = "fast" then
        ({ time_weight := 0.6, cost_weight := 0.4 } : Weights)
       else { time_weight := 0.4, cost_weight := 0.6 }) ∧
    (PreferenceAgent.process u).time_weight +
      (PreferenceAgent.process u).cost_weight = 1 := by
  by_cases h : u.priority = "fast" <;>
    · constructor
      · simp [PreferenceAgent.process, h]
      · simp [PreferenceAgent.process, h]
        norm_num

/-- Claim C4: cost estimation writes cost = 5 * distance on the
candidate at every position of the list. -/
theorem cost_eq_five_times_distance (routes : List Candidate) (i : ℕ)
    (hi : i < routes.length) :
    ∃ hi' : i < (CostAgent.process routes).length,
      ((CostAgent.process routes).get ⟨i, hi'⟩).cost =
        some (5 * (routes.get ⟨i, hi⟩).distance) := by
  refine ⟨by simpa [CostAgent.process] using hi, ?_⟩
  simp [CostAgent.process, List.get_eq_getElem, List.getElem_map, mul_comm]

/-- Concrete instance of cost_eq_five_times_distance at position 0 of
the fixed route list. -/
theorem cost_eq_five_times_distance_witness :
    (0 < sampleRoutes.length) ∧
    (∃ hi' : 0 < (CostAgent.process sampleRoutes).length,
      ((CostAgent.process sampleRoutes).get ⟨0, hi'⟩).cost =
        some (5 * (sampleRoutes.get ⟨0, by decide⟩).distance)) :=
  ⟨by decide, cost_eq_five_times_distance sampleRoutes 0 (by decide)⟩

/-- Claim C5 evidence: time evaluation yields score_time = 1/t for a
positive time t, but on time = 0 it fails with the unguarded
ZeroDivisionError, not with the ValidationError the claim requires, and
on a negative time it silently succeeds with a negative score instead of
failing. -/
theorem time_agent_unguarded_division :
    TimeAgent.process [{ route := "Route X", distance := 5, time := 10 }] =
      Except.ok [{ route := "Route X", distance := 5, time := 10, score_time := some (1/10) }] ∧
    TimeAgent.process [{ route := "Route X", distance := 5, time := 0 }] =
      Except.error PlanError.zeroDivisionError ∧
    (∀ msg, TimeAgent.process
        [{ route := "Route X", distance := 5, time := 0 }] ≠
      Except.error (PlanError.validationError msg)) ∧
    TimeAgent.process [{ route := "Route X", distance := 5, time := -5 }] =
      Except.ok [{ route := "Route X", distance := 5, time := -5, score_time := some (-(1/5)) }] := by
  refine ⟨by norm_num [TimeAgent.process], by norm_num [TimeAgent.process],
    ?_, by norm_num [TimeAgent.process]⟩
  intro msg h
  norm_num [TimeAgent.process] at h
  exact PlanError.noConfusion h

/-- Claim C6 evidence: decision fusion on an empty candidate list does
not fail with a ValidationError as the claim requires; it silently
returns the sentinel None selection. -/
theorem select_best_empty_silent_none (weights : Weights) :
    DecisionFusion.select_best [] weights = Except.ok none ∧
    ∀ msg, DecisionFusion.select_best [] weights ≠
      Except.error (PlanError.validationError msg) := by
  refine ⟨rfl, ?_⟩
  intro msg h
  simp [DecisionFusion.select_best, DecisionFusion.selectBestAux] at h

/-- Claim C7: each annotation stage (cost estimation, time evaluation
when every time is nonzero, feasibility check) preserves the number and
order of the candidates and, at every position, leaves every field other
than its own unchanged. -/
theorem stages_preserve_fields (routes : List Candidate)
    (hz : ∀ r ∈ routes, r.time ≠ 0) :
    ((CostAgent.process routes).length = routes.length ∧
      (∀ i, ∀ hi : i < routes.length,
        ∀ hi' : i < (CostAgent.process routes).length,
        ((CostAgent.process routes).get ⟨i, hi'⟩).route =
          (routes.get ⟨i, hi⟩).route ∧
        ((CostAgent.process routes).get ⟨i, hi'⟩).distance =
          (routes.get ⟨i, hi⟩).distance ∧
        ((CostAgent.process routes).get ⟨i, hi'⟩).time =
          (routes.get ⟨i, hi⟩).time ∧
        ((CostAgent.process routes).get ⟨i, hi'⟩).score_time =
          (routes.get ⟨i, hi⟩).score_time ∧
        ((CostAgent.process routes).get ⟨i, hi'⟩).feasible =
          (routes.get ⟨i, hi⟩).feasible)) ∧
    (∃ out, TimeAgent.process routes = Except.ok out ∧
      out.length = routes.length ∧
      (∀ i, ∀ hi : i < routes.length, ∀ hi' : i < out.length,
        (out.get ⟨i, hi'⟩).route = (routes.get ⟨i, hi⟩).route ∧
        (out.get ⟨i, hi'⟩).distance = (routes.get ⟨i, hi⟩).distance ∧
        (out.get ⟨i, hi'⟩).time = (routes.get ⟨i, hi⟩).time ∧
        (out.get ⟨i, hi'⟩).cost = (routes.get ⟨i, hi⟩).cost ∧
        (out.get ⟨i, hi'⟩).feasible = (routes.get ⟨i, hi⟩).feasible)) ∧
    ((ResourceAgent.process routes).length = routes.length ∧
      (∀ i, ∀ hi : i < routes.length,
        ∀ hi' : i < (ResourceAgent.process routes).length,
        ((ResourceAgent.process routes).get ⟨i, hi'⟩).route =
          (routes.get ⟨i, hi⟩).route ∧
        ((ResourceAgent.process routes).get ⟨i, hi'⟩).distance =
          (routes.get ⟨i, hi⟩).distance ∧
        ((ResourceAgent.process routes).get ⟨i, hi'⟩).time =
          (routes.get ⟨i, hi⟩).time ∧
        ((ResourceAgent.process routes).get ⟨i, hi'⟩).cost =
          (routes.get ⟨i, hi⟩).cost ∧
        ((ResourceAgent.process routes).get ⟨i, hi'⟩).score_time =
          (routes.get ⟨i, hi⟩).score_time)) := by
  refine ⟨⟨by simp [CostAgent.process], ?_⟩, ?_,
    ⟨by simp [ResourceAgent.process], ?_⟩⟩
  · intro i hi hi'
    simp [CostAgent.process, List.get_eq_getElem, List.getElem_map]
  · refine ⟨_, timeAgent_eq_map routes hz, by simp, ?_⟩
    intro i hi hi'
    simp [List.get_eq_getElem, List.getElem_map]
  · intro i hi hi'
    simp [ResourceAgent.process, List.get_eq_getElem, List.getElem_map]

/-- Concrete instance of stages_preserve_fields on the fixed route
list. -/
theorem stages_preserve_fields_witness :
    (∀ r ∈ sampleRoutes, r.time ≠ 0) ∧
    (((CostAgent.process sampleRoutes).length = sampleRoutes.length ∧
      (∀ i, ∀ hi : i < sampleRoutes.length,
        ∀ hi' : i < (CostAgent.process sampleRoutes).length,
        ((CostAgent.process sampleRoutes).get ⟨i, hi'⟩).route =
          (sampleRoutes.get ⟨i, hi⟩).route ∧
        ((CostAgent.process sampleRoutes).get ⟨i, hi'⟩).distance =
          (sampleRoutes.get ⟨i, hi⟩).distance ∧
        ((CostAgent.process sampleRoutes).get ⟨i, hi'⟩).time =
          (sampleRoutes.get ⟨i, hi⟩).time ∧
        ((CostAgent.process sampleRoutes).get ⟨i, hi'⟩).score_time =
          (sampleRoutes.get ⟨i, hi⟩).score_time ∧
        ((CostAgent.process sampleRoutes).get ⟨i, hi'⟩).feasible =
          (sampleRoutes.get ⟨i, hi⟩).feasible)) ∧
    (∃ out, TimeAgent.process sampleRoutes = Except.ok out ∧
      out.length = sampleRoutes.length ∧
      (∀ i, ∀ hi : i < sampleRoutes.length, ∀ hi' : i < out.length,
        (out.get ⟨i, hi'⟩).route = (sampleRoutes.get ⟨i, hi⟩).route ∧
        (out.get ⟨i, hi'⟩).distance = (sampleRoutes.get ⟨i, hi⟩).distance ∧
        (out.get ⟨i, hi'⟩).time = (sampleRoutes.get ⟨i, hi⟩).time ∧
        (out.get ⟨i, hi'⟩).cost = (sampleRoutes.get ⟨i, hi⟩).cost ∧
        (out.get ⟨i, hi'⟩).feasible = (sampleRoutes.get ⟨i, hi⟩).feasible)) ∧
    ((ResourceAgent.process sampleRoutes).length = sampleRoutes.length ∧
      (∀ i, ∀ hi : i < sampleRoutes.length,
        ∀ hi' : i < (ResourceAgent.process sampleRoutes).length,
        ((ResourceAgent.process sampleRoutes).get ⟨i, hi'⟩).route =
          (sampleRoutes.get ⟨i, hi⟩).route ∧
        ((ResourceAgent.process sampleRoutes).get ⟨i, hi'⟩).distance =
          (sampleRoutes.get ⟨i, hi⟩).distance ∧
        ((ResourceAgent.process sampleRoutes).get ⟨i, hi'⟩).time =
          (sampleRoutes.get ⟨i, hi⟩).time ∧
        ((ResourceAgent.process sampleRoutes).get ⟨i, hi'⟩).cost =
          (sampleRoutes.get ⟨i, hi⟩).cost ∧
        ((ResourceAgent.process sampleRoutes).get ⟨i, hi'⟩).score_time =
          (sampleRoutes.get ⟨i, hi⟩).score_time))) :=
  ⟨by decide, stages_preserve_fields sampleRoutes (by decide)⟩

/-- Claim C8: decision fusion never consults the feasible flag: on two
candidate lists equal except for their feasible fields, it produces the
same outcome (equal errors, or selections at the same position that
agree on every field except feasible and carry the same score). -/
theorem select_best_ignores_feasible (weights : Weights)
    (rs₁ rs₂ : List Candidate)
    (h : List.Forall₂ eqExceptFeasible rs₁ rs₂) :
    fusionOutcomeRel weights
      (DecisionFusion.select_best rs₁ weights)
      (DecisionFusion.select_best rs₂ weights) := by
  unfold DecisionFusion.select_best
  refine selectBestAux_congr weights h ?_ (-1)
  unfold optCandRel
  trivial

/-- Concrete instance of select_best_ignores_feasible on the annotated
fixed route list and a copy with altered feasible flags. -/
theorem select_best_ignores_feasible_witness :
    List.Forall₂ eqExceptFeasible sampleFused sampleInfeasible ∧
    fusionOutcomeRel { time_weight := 0.6, cost_weight := 0.4 }
      (DecisionFusion.select_best sampleFused
        { time_weight := 0.6, cost_weight := 0.4 })
      (DecisionFusion.select_best sampleInfeasible
        { time_weight := 0.6, cost_weight := 0.4 }) := by
  have h : List.Forall₂ eqExceptFeasible sampleFused sampleInfeasible := by
    refine List.Forall₂.cons ?_ (List.Forall₂.cons ?_
      (List.Forall₂.cons ?_ List.Forall₂.nil)) <;>
      exact ⟨rfl, rfl, rfl, rfl, rfl⟩
  exact ⟨h, select_best_ignores_feasible _ _ _ h⟩

/-- Claim C9: invoking the base agent's process operation directly fails
with NotImplementedError for every agent and every input. -/
theorem base_agent_process_raises {α : Type} (a : BaseAgent) (data : α) :
    a.process data = Except.error (PlanError.notImplementedError
      "Each agent must implement the process() method") := rfl

/-- Claim C10: there is a non-empty candidate list (one whose scores are
all at most the sentinel -1, here built from negative time and cost) on
which decision fusion returns no selection at all. -/
theorem select_best_nonempty_none :
    ∃ (routes : List Candidate) (weights : Weights),
      routes ≠ [] ∧
      DecisionFusion.select_best routes weights = Except.ok none := by
  refine ⟨[{ route := "Route X", distance := 1, time := -1, cost := some (-1) }],
    { time_weight := 0.6, cost_weight := 0.4 }, by simp, ?_⟩
  norm_num [DecisionFusion.select_best, DecisionFusion.selectBestAux,
    DecisionFusion.score]
